import Mathlib

/-!
Verification of the BillingTick locale-aware extraction and classification
engine (`src/services/LocalizedParser.ts`, `src/services/AIBillClassifier.ts`,
`src/types/Bill.ts`) against its natural-language specification.

The TypeScript source is shallowly embedded: strings are lists of characters,
JavaScript numbers are rationals (all constants in the engine are short
decimal literals and every comparison in the claims is at decimal precision),
regular-expression matching is implemented by executable matchers that follow
the JavaScript backtracking semantics of the concrete patterns appearing in
the source, and `undefined` / not-found results are `Option`.
-/

namespace BillingTick

/- ## Character and string primitives (JavaScript semantics) -/

/-- JavaScript `\d`: the ASCII digits. -/
def isDigit (c : Char) : Bool := '0' ≤ c && c ≤ '9'

/-- JavaScript `\s` (the whitespace characters that can occur in the inputs
considered here; the full JS class also has exotic Unicode spaces). -/
def isSpaceJS (c : Char) : Bool :=
  c = ' ' || c = '\t' || c = '\n' || c = '\r' || c = '\x0b' || c = '\x0c'

/-- JavaScript `\w`: ASCII letters, digits and underscore (`\w` is not
Unicode-aware, so Turkish and German letters are NOT word characters). -/
def isWordChar (c : Char) : Bool :=
  ('a' ≤ c && c ≤ 'z') || ('A' ≤ c && c ≤ 'Z') || isDigit c || c = '_'

/-- JavaScript `String.prototype.toLowerCase` on one character.  It is not
character-to-character: the Turkish dotted capital I (U+0130) lowercases to
the two-character sequence `i` followed by the combining dot above (U+0307). -/
def jsLowerChar (c : Char) : List Char :=
  if c = 'İ' then ['i', '̇']
  else if 'A' ≤ c && c ≤ 'Z' then [Char.ofNat (c.toNat + 32)]
  else if c = 'Ç' then ['ç'] else if c = 'Ğ' then ['ğ']
  else if c = 'Ö' then ['ö'] else if c = 'Ş' then ['ş']
  else if c = 'Ü' then ['ü'] else if c = 'Ä' then ['ä']
  else [c]

/-- JavaScript `toLowerCase` on a character list. -/
def jsLower (l : List Char) : List Char := l.flatMap jsLowerChar

/-- JavaScript `haystack.includes(needle)`: substring containment. -/
def containsSub (hay pat : List Char) : Bool :=
  (List.range (hay.length + 1)).any (fun i => pat.isPrefixOf (hay.drop i))

/-- JavaScript `str.replace(old, new)` with a plain (non-regex) search string of one
character: replaces only the FIRST occurrence. -/
def replaceFirst (l : List Char) (a b : Char) : List Char :=
  match l with
  | [] => []
  | c :: r => if c = a then b :: r else c :: replaceFirst r a b

/-- Numeric value of a digit list (most significant first). -/
def natOfDigits (l : List Char) : Nat :=
  l.foldl (fun acc c => 10 * acc + (c.toNat - '0'.toNat)) 0

/-- JavaScript `parseInt` on an all-digit capture group. -/
def parseIntJS (l : List Char) : Nat := natOfDigits l

/- JavaScript numbers are modelled as rationals (every constant in the
engine is a short decimal literal and every claim compares at decimal
precision).  The field operations of `ℚ` do not reduce inside the Lean
kernel, so the model computes with the following equivalent operations
built on `mkRat`; the bridge lemmas `qadd_eq`, `qmul_eq`, `qsub_eq`,
`qmin_eq`, `qmax_eq` below identify them with `+`, `*`, `-`, `min`, `max`. -/

def qadd (a b : ℚ) : ℚ := mkRat (a.num * b.den + b.num * a.den) (a.den * b.den)

def qmul (a b : ℚ) : ℚ := mkRat (a.num * b.num) (a.den * b.den)

def qsub (a b : ℚ) : ℚ := mkRat (a.num * b.den - b.num * a.den) (a.den * b.den)

def qmin (a b : ℚ) : ℚ := if a ≤ b then a else b

def qmax (a b : ℚ) : ℚ := if a ≤ b then b else a

/-- The rational `n / d` as a kernel-computable value. -/
def q (n : Int) (d : Nat) : ℚ := mkRat n d

/-- JavaScript `parseFloat` on strings made of digits, periods and commas
(the only strings it receives in this engine): reads an optional integer part
and an optional `.`-fraction, ignores the rest; `none` models `NaN`. -/
def parseFloatQ (s : List Char) : Option ℚ :=
  let intPart := s.takeWhile isDigit
  let rest := s.dropWhile isDigit
  match rest with
  | '.' :: r2 =>
    let frac := r2.takeWhile isDigit
    if intPart = [] && frac = [] then none
    else some (qadd (natOfDigits intPart : ℚ) (q (natOfDigits frac) (10 ^ frac.length)))
  | _ => if intPart = [] then none else some (natOfDigits intPart : ℚ)

/-- Comparison `x > y` where `x` may be `NaN` (`none`): any comparison with `NaN` is
false in JavaScript. -/
def numGT (x : Option ℚ) (y : ℚ) : Bool :=
  match x with
  | none => false
  | some v => y < v

/-- Collapse every maximal run of whitespace into a single space
(`.replace(/\s+/g, ' ')`). -/
def collapseSpaces (l : List Char) : List Char :=
  (l.foldl
    (fun (acc : List Char × Bool) c =>
      if isSpaceJS c then
        if acc.2 then acc else (' ' :: acc.1, true)
      else (c :: acc.1, false))
    ([], false)).1.reverse

/-- JavaScript `String.prototype.trim`. -/
def jsTrim (l : List Char) : List Char :=
  ((l.dropWhile isSpaceJS).reverse.dropWhile isSpaceJS).reverse

/- ## Enumerations from `src/types/Bill.ts` -/

inductive InvoiceType where
  | ELECTRICITY | WATER | GAS | INTERNET | PHONE
  | CABLE | INSURANCE | RENT | CREDIT_CARD | UNKNOWN
deriving DecidableEq, Repr

inductive Currency where
  | USD | EUR | GBP | TRY | CAD | AUD | JPY | CHF | SEK | NOK
deriving DecidableEq, Repr

inductive Country where
  | US | UK | DE | FR | ES | IT | TR | CA | AU | JP | CH | SE | NO
deriving DecidableEq, Repr

/-- Declaration order of the `InvoiceType` enum and of the keys of
`CLASSIFICATION_RULES` (string-keyed object: insertion order). -/
def typeOrder : List InvoiceType :=
  [.ELECTRICITY, .WATER, .GAS, .INTERNET, .PHONE,
   .CABLE, .INSURANCE, .RENT, .CREDIT_CARD, .UNKNOWN]

/-- Declaration order of the `Currency` enum. -/
def currencyOrder : List Currency :=
  [.USD, .EUR, .GBP, .TRY, .CAD, .AUD, .JPY, .CHF, .SEK, .NOK]

/- ## Amount extraction (`LocalizedParser`) -/

/-- Structure `Amount` from `src/types/Bill.ts` (`raw` kept as characters). -/
structure Amount where
  value : ℚ
  currency : Currency
  raw : List Char
deriving DecidableEq, Repr

/-- Exactly `n` leading digits, with the rest of the input. -/
def digitsTake : Nat → List Char → Option (List Char × List Char)
  | 0, s => some ([], s)
  | _ + 1, [] => none
  | n + 1, c :: r =>
    if isDigit c then (digitsTake n r).map (fun p => (c :: p.1, p.2)) else none

/-- One repetition of `(?:S\d{3})`: a separator character then three digits. -/
def repStep (sep : Char → Bool) (s : List Char) : Option (List Char × List Char) :=
  match s with
  | [] => none
  | c :: r =>
    if sep c then
      match digitsTake 3 r with
      | some (d, rest) => some (c :: d, rest)
      | none => none
    else none

/-- States after 0, 1, 2, … repetitions of `(?:S\d{3})*`, in increasing
order (each repetition consumes four characters; `fuel` bounds recursion). -/
def repsStates (sep : Char → Bool) : Nat → List Char → List (List Char × List Char)
  | 0, s => [([], s)]
  | fuel + 1, s =>
    match repStep sep s with
    | none => [([], s)]
    | some (c, rest) =>
      ([], s) :: (repsStates sep fuel rest).map (fun p => (c ++ p.1, p.2))

/-- Candidates for `(?:D\d{2})?` in the greedy (JavaScript) order:
first with the optional part, then without. -/
def decCandidates (dec : Char → Bool) (s : List Char) : List (List Char × List Char) :=
  (match s with
   | [] => []
   | c :: r =>
     if dec c then
       match digitsTake 2 r with
       | some (d, rest) => [(c :: d, rest)]
       | none => []
     else []) ++ [([], s)]

/-- All ways `\d{1,3}(?:S\d{3})*(?:D\d{2})?` can match a prefix of `s`, as
(consumed, rest) pairs in the JavaScript backtracking priority order:
greedy on the leading digits, then on the separator groups, then on the
optional decimal part. -/
def numCandidates (sep dec : Char → Bool) (s : List Char) : List (List Char × List Char) :=
  ([3, 2, 1].filterMap (fun k => digitsTake k s)).flatMap (fun p1 =>
    ((repsStates sep p1.2.length p1.2).reverse).flatMap (fun p2 =>
      (decCandidates dec p2.2).map (fun p3 => (p1.1 ++ p2.1 ++ p3.1, p3.2))))

/-- A currency surface pattern: either symbol/ISO-code prefixed
(`lit\s*(NUM)`) or symbol/code suffixed (`(NUM)\s*lit`), where `NUM` is
`\d{1,3}(?:S\d{3})*(?:D\d{2})?` with separator class `S` and decimal class
`D`. -/
inductive AmtPattern where
  | pre (lit : List Char) (sep dec : Char → Bool)
  | suf (sep dec : Char → Bool) (lit : List Char)

/-- Number of leading whitespace characters (`\s*`, greedy; safe here since
every continuation starts with a non-whitespace character). -/
def countSpaces (s : List Char) : Nat := (s.takeWhile isSpaceJS).length

/-- Attempt a currency pattern at the current position; on success returns
the captured numeric substring and the total length of the match. -/
def matchAmtAt (p : AmtPattern) (s : List Char) : Option (List Char × Nat) :=
  match p with
  | .pre lit sep dec =>
    if lit.isPrefixOf s then
      let r1 := s.drop lit.length
      let sp := countSpaces r1
      match numCandidates sep dec (r1.drop sp) with
      | [] => none
      | (cap, _) :: _ => some (cap, lit.length + sp + cap.length)
    else none
  | .suf sep dec lit =>
    (numCandidates sep dec s).findSome? (fun pr =>
      let sp := countSpaces pr.2
      if lit.isPrefixOf (pr.2.drop sp) then
        some (pr.1, pr.1.length + sp + lit.length)
      else none)

/-- JavaScript `text.matchAll(pattern)`: scan left to right, after each match continue
right after it (every match here consumes at least one character); returns
the captured numeric substrings in order. -/
def amtMatchesAux (p : AmtPattern) : Nat → List Char → List (List Char)
  | 0, _ => []
  | _ + 1, [] => []
  | fuel + 1, s =>
    match matchAmtAt p s with
    | some (cap, len) => cap :: amtMatchesAux p fuel (s.drop len)
    | none => amtMatchesAux p fuel (s.drop 1)

def amtMatches (p : AmtPattern) (s : List Char) : List (List Char) :=
  amtMatchesAux p (s.length + 1) s

/-- Thousands/decimal separator classes used by the source patterns. -/
def sepComma (c : Char) : Bool := c = ','
def decPeriod (c : Char) : Bool := c = '.'
def sepEither (c : Char) : Bool := c = '.' || c = ','

/-- The `globalPatterns` table of `LocalizedParser.parseAmountAdvanced`
(only USD, EUR, TRY, GBP have entries; the other currencies are
`undefined`, modelled as the empty pattern list). -/
def globalPatterns : Currency → List AmtPattern
  | .USD => [.pre ['$'] sepComma decPeriod,
             .pre ['U', 'S', 'D'] sepComma decPeriod]
  | .EUR => [.pre ['€'] sepEither sepEither,
             .suf sepEither sepEither ['€'],
             .pre ['E', 'U', 'R'] sepEither sepEither]
  | .TRY => [.pre ['₺'] sepEither sepEither,
             .suf sepEither sepEither ['₺'],
             .suf sepEither sepEither ['T', 'L']]
  | .GBP => [.pre ['£'] sepComma decPeriod,
             .pre ['G', 'B', 'P'] sepComma decPeriod]
  | _ => []

/-- Test `/S\d{2}$/`: the cleaned string ends in the separator followed by
exactly two digits. -/
def endsSepTwo (sep : Char) (l : List Char) : Bool :=
  match l.reverse with
  | d1 :: d2 :: c :: _ => isDigit d1 && isDigit d2 && c = sep
  | _ => false

/-- Model of `LocalizedParser.parseNumericAmount`: strips everything but digits,
periods and commas, then resolves the decimal separator: in `'auto'` mode by
the ending of the string (falling back to comma-stripping), otherwise by the
locale key (`DE`/`TR` → European convention). `none` models `NaN`. -/
def parseNumericAmount (amountStr : List Char) (locale : List Char) : Option ℚ :=
  let cleanAmount := amountStr.filter (fun c => isDigit c || c = '.' || c = ',')
  if locale = ['a', 'u', 't', 'o'] then
    if endsSepTwo ',' cleanAmount then
      parseFloatQ (replaceFirst (cleanAmount.filter (fun c => c ≠ '.')) ',' '.')
    else if endsSepTwo '.' cleanAmount then
      parseFloatQ (cleanAmount.filter (fun c => c ≠ ','))
    else
      parseFloatQ (cleanAmount.filter (fun c => c ≠ ','))
  else if containsSub locale ['D', 'E'] || containsSub locale ['T', 'R'] then
    parseFloatQ (replaceFirst (cleanAmount.filter (fun c => c ≠ '.')) ',' '.')
  else
    parseFloatQ (cleanAmount.filter (fun c => c ≠ ','))

/-- Numeric values of a list of captured amount strings, each resolved in
`'auto'` mode (JavaScript `NaN` results are dropped; they never win the
maximum selection because every `NaN` comparison is false). -/
def matchValues (ms : List (List Char)) : List ℚ :=
  ms.filterMap (fun m => parseNumericAmount m ['a', 'u', 't', 'o'])

/-- The valid numeric values one pattern produces on a text. -/
def patternValues (p : AmtPattern) (text : List Char) : List ℚ :=
  matchValues (amtMatches p text)

/-- One step of the maximum-selection loop of `tryParseWithPatterns`: keep
the strictly larger value (`if (numericAmount > maxAmount)`). -/
def bestStep (acc : ℚ × List Char) (m : List Char) : ℚ × List Char :=
  let v := parseNumericAmount m ['a', 'u', 't', 'o']
  if numGT v acc.1 then (v.getD 0, m) else acc

/-- The maximum-selection loop of `tryParseWithPatterns`, starting from
`(0, '')`. -/
def bestOfMatches (ms : List (List Char)) : ℚ × List Char :=
  ms.foldl bestStep (0, [])

/-- Model of `LocalizedParser.tryParseWithPatterns`: for each pattern in order,
collect its matches; the first pattern whose largest value is positive
yields the result. -/
def tryParseWithPatterns (text : List Char) (currency : Currency) :
    List AmtPattern → Option Amount
  | [] => none
  | p :: ps =>
    let ms := amtMatches p text
    let best := bestOfMatches ms
    if ms ≠ [] ∧ 0 < best.1 then some ⟨best.1, currency, best.2⟩
    else tryParseWithPatterns text currency ps

/-- Entry order of the `globalPatterns` object (string keys, insertion
order). -/
def amountEntries : List Currency := [.USD, .EUR, .TRY, .GBP]

/-- The `for (const [currency, patterns] of Object.entries(globalPatterns))`
loop of `parseAmountAdvanced`, skipping the (already tried) hint currency. -/
def tryRemaining (text : List Char) (hint : Option Currency) :
    List Currency → Option Amount
  | [] => none
  | c :: cs =>
    if some c = hint then tryRemaining text hint cs
    else
      match tryParseWithPatterns text c (globalPatterns c) with
      | some a => some a
      | none => tryRemaining text hint cs

/-- The `PRIMARY_CURRENCY_BY_COUNTRY` table and
`LocalizedParser.getPrimaryCurrency` (default USD). -/
def PRIMARY_CURRENCY_BY_COUNTRY : List (List Char × Currency) :=
  [(['U', 'S'], .USD), (['G', 'B'], .GBP), (['T', 'R'], .TRY),
   (['D', 'E'], .EUR), (['F', 'R'], .EUR), (['E', 'S'], .EUR),
   (['I', 'T'], .EUR), (['C', 'A'], .CAD), (['A', 'U'], .AUD),
   (['J', 'P'], .JPY), (['C', 'H'], .CHF), (['S', 'E'], .SEK),
   (['N', 'O'], .NOK)]

def getPrimaryCurrency (countryCode : List Char) : Currency :=
  (List.lookup countryCode PRIMARY_CURRENCY_BY_COUNTRY).getD .USD

/-- Model of `LocalizedParser.parseAmountAdvanced`: tries the hinted currency first
(when its pattern entry exists), then the remaining entries in object order.
The source also computes `primaryCurrency` from the country hint on its
first line, but that value is never read afterwards — the country hint does
not influence the try-order. -/
def parseAmountAdvanced (text : List Char) (hintCurrency : Option Currency)
    (hintCountry : Option (List Char)) : Option Amount :=
  let _primaryCurrency :=
    match hintCurrency with
    | some c => c
    | none => getPrimaryCurrency (hintCountry.getD ['U', 'S'])
  let hintResult : Option Amount :=
    match hintCurrency with
    | some c =>
      if (globalPatterns c).isEmpty then none
      else tryParseWithPatterns text c (globalPatterns c)
    | none => none
  match hintResult with
  | some a => some a
  | none => tryRemaining text hintCurrency amountEntries

/- ## Spec-side definitions for the amount claims -/

/-- First success of `f` along a currency list. -/
def firstSome (f : Currency → Option Amount) : List Currency → Option Amount
  | [] => none
  | c :: cs =>
    match f c with
    | some a => some a
    | none => firstSome f cs

/-- The try-order `parseAmountAdvanced` actually uses: the hinted currency
first (when its pattern entry exists), then the `globalPatterns` entries in
object order, skipping the hint. -/
def codeTryOrder (hint : Option Currency) : List Currency :=
  (match hint with
   | some c => if (globalPatterns c).isEmpty then [] else [c]
   | none => []) ++ amountEntries.filter (fun c => some c ≠ hint)

/-- Modelled from the spec (claim C4 wording): "explicit hint first (if
present), then the locale's primary currency, then all remaining currencies
in a fixed enumeration order". -/
def specTryOrder (hint : Option Currency) (country : Option (List Char)) : List Currency :=
  let primary := getPrimaryCurrency (country.getD ['U', 'S'])
  let hinted : List Currency := match hint with | some c => [c] | none => []
  let headList := if hinted.contains primary then hinted else hinted ++ [primary]
  headList ++ currencyOrder.filter (fun c => ¬ headList.contains c)

/-- Modelled from the spec (claim C4 wording): amount extraction that tries
the currencies in `specTryOrder` and returns the first one with a valid
match. -/
def specAmountAdvanced (text : List Char) (hint : Option Currency)
    (country : Option (List Char)) : Option Amount :=
  firstSome (fun c => tryParseWithPatterns text c (globalPatterns c))
    (specTryOrder hint country)

/-- Splits a list around the LAST occurrence of `sep`. -/
def lastSplit (sep : Char) : List Char → Option (List Char × List Char)
  | [] => none
  | c :: r =>
    match lastSplit sep r with
    | some (a, b) => some (c :: a, b)
    | none => if c = sep then some ([], r) else none

/-- Value of a numeric string read with `sep` as the decimal separator (the
LAST occurrence of `sep`) and every other separator as grouping: integer
digits before it, fraction digits after it. -/
def decimalSplitValue (sep : Char) (clean : List Char) : Option ℚ :=
  match lastSplit sep clean with
  | some (a, b) =>
    let fr := b.filter isDigit
    some (qadd (natOfDigits (a.filter isDigit) : ℚ) (q (natOfDigits fr) (10 ^ fr.length)))
  | none =>
    if clean.filter isDigit = [] then none
    else some (natOfDigits (clean.filter isDigit) : ℚ)

/-- Modelled from the spec (claim C5 wording): resolve a match's numeric
value by the claimed rules — trailing comma+2-digits means comma decimal,
else trailing period+2-digits means period decimal, otherwise the locale's
preferred convention decides (comma-decimal for the continental locales,
which the engine recognises as locale keys containing "DE" or "TR"). -/
def specResolveNumeric (amountStr locale : List Char) : Option ℚ :=
  let clean := amountStr.filter (fun c => isDigit c || c = '.' || c = ',')
  if endsSepTwo ',' clean then decimalSplitValue ',' clean
  else if endsSepTwo '.' clean then decimalSplitValue '.' clean
  else if containsSub locale ['D', 'E'] || containsSub locale ['T', 'R'] then
    decimalSplitValue ',' clean
  else decimalSplitValue '.' clean

/-- European-style resolution chain of the source: strip periods, turn the
first comma into a period, `parseFloat`. -/
def resolveEuropeanChain (clean : List Char) : Option ℚ :=
  parseFloatQ (replaceFirst (clean.filter (fun c => c ≠ '.')) ',' '.')

/-- US-style resolution chain of the source: strip commas, `parseFloat`. -/
def resolveUSChain (clean : List Char) : Option ℚ :=
  parseFloatQ (clean.filter (fun c => c ≠ ','))

/-- The amended reading of claim C5: the ends-in rules apply only in
`'auto'` mode and the `'auto'` fallback is the US-style chain regardless of
locale; a locale-keyed call uses the locale convention alone (the European
chain exactly when the key contains "DE" or "TR"). -/
def specResolveNumericAmended (amountStr locale : List Char) : Option ℚ :=
  let clean := amountStr.filter (fun c => isDigit c || c = '.' || c = ',')
  if locale = ['a', 'u', 't', 'o'] then
    if endsSepTwo ',' clean then resolveEuropeanChain clean
    else if endsSepTwo '.' clean then resolveUSChain clean
    else resolveUSChain clean
  else if containsSub locale ['D', 'E'] || containsSub locale ['T', 'R'] then
    resolveEuropeanChain clean
  else resolveUSChain clean

/- ## Date extraction (`LocalizedParser.parseDate`) -/

/-- One date surface pattern `(\d{1,2})sep(\d{1,2})sep(\d{4})` with the
capture-group role assignment and format label from
`DATE_PATTERNS_BY_LOCALE`. -/
structure DatePattern where
  sep : Char
  order : List Nat
  format : List Char

/-- Candidate matches for `(\d{1,2})` in greedy order: two digits first. -/
def dateG12 (s : List Char) : List (List Char × List Char) :=
  [2, 1].filterMap (fun k => digitsTake k s)

/-- Attempt the date pattern at the current position; returns the three
capture groups and the match length. -/
def matchDateAt (sep : Char) (s : List Char) : Option (List (List Char) × Nat) :=
  (dateG12 s).findSome? (fun p1 =>
    match p1.2 with
    | [] => none
    | c :: r1 =>
      if c = sep then
        (dateG12 r1).findSome? (fun p2 =>
          match p2.2 with
          | [] => none
          | c2 :: r2 =>
            if c2 = sep then
              match digitsTake 4 r2 with
              | some (g3, _) =>
                some ([p1.1, p2.1, g3], p1.1.length + 1 + p2.1.length + 1 + 4)
              | none => none
            else none)
      else none)

/-- A regex match with its index, full text and capture groups. -/
structure DateMatch where
  index : Nat
  full : List Char
  groups : List (List Char)
deriving DecidableEq, Repr

def dateMatchesAux (sep : Char) : Nat → Nat → List Char → List DateMatch
  | 0, _, _ => []
  | _ + 1, _, [] => []
  | fuel + 1, pos, s =>
    match matchDateAt sep s with
    | some (gs, len) => ⟨pos, s.take len, gs⟩ :: dateMatchesAux sep fuel (pos + len) (s.drop len)
    | none => dateMatchesAux sep fuel (pos + 1) (s.drop 1)

/-- All matches of a date pattern (`text.matchAll`), left to right. -/
def dateMatches (sep : Char) (text : List Char) : List DateMatch :=
  dateMatchesAux sep (text.length + 1) 0 text

/-- The `DATE_PATTERNS_BY_LOCALE` table. -/
def DATE_PATTERNS_BY_LOCALE : List (List Char × List DatePattern) :=
  [(['e', 'n', '-', 'U', 'S'],
    [⟨'/', [1, 0, 2], ['M', 'M', '/', 'D', 'D', '/', 'Y', 'Y', 'Y', 'Y']⟩,
     ⟨'-', [1, 0, 2], ['M', 'M', '-', 'D', 'D', '-', 'Y', 'Y', 'Y', 'Y']⟩]),
   (['d', 'e', '-', 'D', 'E'],
    [⟨'.', [0, 1, 2], ['D', 'D', '.', 'M', 'M', '.', 'Y', 'Y', 'Y', 'Y']⟩,
     ⟨'/', [0, 1, 2], ['D', 'D', '/', 'M', 'M', '/', 'Y', 'Y', 'Y', 'Y']⟩]),
   (['t', 'r', '-', 'T', 'R'],
    [⟨'.', [0, 1, 2], ['D', 'D', '.', 'M', 'M', '.', 'Y', 'Y', 'Y', 'Y']⟩,
     ⟨'/', [0, 1, 2], ['D', 'D', '/', 'M', 'M', '/', 'Y', 'Y', 'Y', 'Y']⟩])]

/-- The `DUE_KEYWORDS_BY_LANGUAGE` table. -/
def DUE_KEYWORDS_BY_LANGUAGE : List (List Char × List (List Char)) :=
  [(['e', 'n'],
    (["due", "payment due", "pay by", "deadline", "due date", "payable by"].map
      String.toList)),
   (['d', 'e'],
    (["fällig", "zahlbar bis", "zahlung bis", "fälligkeit", "zahlungstermin"].map
      String.toList)),
   (['t', 'r'],
    (["son ödeme", "ödeme tarihi", "vade", "son tarih", "ödeme vadesi",
      "son ödeme tarihi"].map String.toList))]

def getDueKeywords (languageCode : List Char) : List (List Char) :=
  (List.lookup languageCode DUE_KEYWORDS_BY_LANGUAGE).getD
    ((List.lookup ['e', 'n'] DUE_KEYWORDS_BY_LANGUAGE).getD [])

/-- The result of `parseDate`.  The TypeScript `DateInfo` stores the JS
`Date` object `new Date(year, month-1, day)`; the model keeps the three
integers handed to that constructor, plus the raw match and format label
(`jsDateYMD` below gives the calendar date the constructed object actually
denotes). -/
structure DateInfo where
  day : Nat
  month : Nat
  year : Nat
  raw : List Char
  format : List Char
deriving DecidableEq, Repr

/-- The inner candidate loop of `parseDate`: accept a match when its
50-before/100-after window contains a due keyword, or when the pattern has
exactly one match; then validate `1 ≤ day ≤ 31`, `1 ≤ month ≤ 12`,
`year ≥ 2020`.  The source's final `!isNaN(new Date(...).getTime())` check
never fails for such arguments (JavaScript rolls invalid day/month
combinations over instead of producing an invalid date). -/
def findValidDate (dueKeywords : List (List Char)) (text : List Char)
    (p : DatePattern) (total : Nat) : List DateMatch → Option DateInfo
  | [] => none
  | m :: rest =>
    let start := m.index - 50
    let surrounding := (text.drop start).take (m.index + 100 - start)
    let isDueDate := dueKeywords.any (fun kw =>
      containsSub (jsLower surrounding) (jsLower kw))
    if isDueDate || total == 1 then
      let day := parseIntJS (m.groups.getD (p.order.getD 0 0) [])
      let month := parseIntJS (m.groups.getD (p.order.getD 1 0) [])
      let year := parseIntJS (m.groups.getD (p.order.getD 2 0) [])
      if 1 ≤ day ∧ day ≤ 31 ∧ 1 ≤ month ∧ month ≤ 12 ∧ 2020 ≤ year then
        some ⟨day, month, year, m.full, p.format⟩
      else findValidDate dueKeywords text p total rest
    else findValidDate dueKeywords text p total rest

def parseDateWith (dueKeywords : List (List Char)) (text : List Char) :
    List DatePattern → Option DateInfo
  | [] => none
  | p :: ps =>
    let ms := dateMatches p.sep text
    match findValidDate dueKeywords text p ms.length ms with
    | some d => some d
    | none => parseDateWith dueKeywords text ps

/-- Model of `LocalizedParser.parseDate`, with the device locale (language and
country codes from `RNLocalize`) made explicit parameters. -/
def parseDate (languageCode countryCode : List Char) (text : List Char) :
    Option DateInfo :=
  let localeKey := languageCode ++ ['-'] ++ countryCode
  let patterns := (List.lookup localeKey DATE_PATTERNS_BY_LOCALE).getD
    ((List.lookup ['e', 'n', '-', 'U', 'S'] DATE_PATTERNS_BY_LOCALE).getD [])
  let dueKeywords := getDueKeywords languageCode
  parseDateWith dueKeywords text patterns

/-- Gregorian leap-year rule. -/
def isLeapYear (y : Nat) : Bool := (y % 4 == 0 && y % 100 != 0) || y % 400 == 0

def daysInMonth (y m : Nat) : Nat :=
  if m = 2 then (if isLeapYear y then 29 else 28)
  else if m = 4 || m = 6 || m = 9 || m = 11 then 30
  else 31

/-- Modelled from the spec (claim C2 wording): day/month/year form a real
calendar date (this rejects Feb 30, day 32, month 13, year < 2020). -/
def isRealCalendarDate (day month year : Nat) : Bool :=
  1 ≤ month && month ≤ 12 && 1 ≤ day && day ≤ daysInMonth year month && 2020 ≤ year

/-- The calendar date denoted by the JavaScript object
`new Date(year, month-1, day)` for the arguments `parseDate` validates
(`1 ≤ day ≤ 31` overflows by at most one month). -/
def jsDateYMD (year month day : Nat) : Nat × Nat × Nat :=
  if day ≤ daysInMonth year month then (year, month, day)
  else if month = 12 then (year + 1, 1, day - daysInMonth year month)
  else (year, month + 1, day - daysInMonth year month)

/- ## Confidence calibration (`AIBillClassifier.calibrateConfidence`) -/

/-- Model of `AIBillClassifier.calibrateConfidence`: multiplies the raw confidence by
0.8 / 0.9 / 0.85 for a missing amount / date / company, then floors at 0.1
and caps at 0.98. -/
def calibrateConfidence (confidence : ℚ) (hasAmount hasDate hasCompany : Bool) : ℚ :=
  let c1 := if hasAmount then confidence else qmul confidence (q 8 10)
  let c2 := if hasDate then c1 else qmul c1 (q 9 10)
  let c3 := if hasCompany then c2 else qmul c2 (q 85 100)
  qmin (qmax c3 (q 1 10)) (q 98 100)

/- ## Bill-type classification (`AIBillClassifier`) -/

/-- Abstract syntax of the classification regexes: literals, bounded
any-character gaps (`.?`, `.{0,20}`; `.` excludes line terminators), `\d+`,
sequencing and alternation. -/
inductive Rx where
  | lit : List Char → Rx
  | anyUpTo : Nat → Rx
  | digits1 : Rx
  | seq : Rx → Rx → Rx
  | alt : Rx → Rx → Rx

/-- All suffixes remaining after the expression matches a prefix of `s`
(nondeterministic matcher; only existence of a match is consumed). -/
def Rx.rests : Rx → List Char → List (List Char)
  | .lit l, s => if l.isPrefixOf s then [s.drop l.length] else []
  | .anyUpTo n, s =>
    (List.range (n + 1)).filterMap (fun k =>
      if k ≤ s.length && (s.take k).all (fun c => c ≠ '\n' && c ≠ '\r') then
        some (s.drop k)
      else none)
  | .digits1, s =>
    (List.range (s.takeWhile isDigit).length).map (fun k => s.drop (k + 1))
  | .seq a b, s => (a.rests s).flatMap b.rests
  | .alt a b, s => a.rests s ++ b.rests s

/-- RegExp `test`: the expression matches somewhere in `s`. -/
def Rx.test (r : Rx) (s : List Char) : Bool :=
  (List.range (s.length + 1)).any (fun i => !(r.rests (s.drop i)).isEmpty)

/-- Literal from a string. -/
def rlit (s : String) : Rx := .lit s.toList

/-- Three-way alternation `(?:a|b|c)`. -/
def ralt3 (a b c : String) : Rx := .alt (rlit a) (.alt (rlit b) (rlit c))

/-- The recurring `(?:fatura|bill|rechnung)` tail. -/
def billRx : Rx := ralt3 "fatura" "bill" "rechnung"

/-- The recurring `(?:m3|metre.?küp|cubic.?meter)` group. -/
def m3Rx : Rx :=
  .alt (rlit "m3")
    (.alt (.seq (rlit "metre") (.seq (.anyUpTo 1) (rlit "küp")))
      (.seq (rlit "cubic") (.seq (.anyUpTo 1) (rlit "meter"))))

/-- Per-type rule set of `CLASSIFICATION_RULES`. -/
structure ClassificationKeywords where
  primary : List String
  secondary : List String
  companies : List String
  patterns : List Rx
  negativeKeywords : List String

/-- The `CLASSIFICATION_RULES` table of `AIBillClassifier`, transcribed
verbatim (keyword lists, company lists, regex patterns, negative keywords). -/
def CLASSIFICATION_RULES : InvoiceType → ClassificationKeywords
  | .ELECTRICITY =>
    { primary := ["elektrik", "tedaş", "elektrik tüketimi", "kwh", "enerji", "güç",
                  "electricity", "electric", "power", "energy", "kwh", "kilowatt",
                  "strom", "elektrizität", "energie", "kilowattstunde"],
      secondary := ["fatura", "bill", "rechnung", "tüketim", "consumption", "verbrauch",
                    "meter", "sayaç", "zähler", "watt", "volt"],
      companies := ["TEDAŞ", "E.ON", "RWE", "VATTENFALL", "ENEL", "EDF", "ENDESA",
                    "PG&E", "EDISON", "ELECTRIC COMPANY", "POWER COMPANY"],
      patterns := [.seq (.alt (rlit "kw") (rlit "kilowatt")) (.seq (.anyUpTo 1) (rlit "h")),
                   .seq (ralt3 "elektrik" "electric" "strom") (.seq (.anyUpTo 20) billRx),
                   .seq (ralt3 "enerji" "energy" "energie")
                     (.seq (.anyUpTo 20) (ralt3 "tüketim" "consumption" "verbrauch"))],
      negativeKeywords := ["su", "water", "wasser", "gaz", "gas", "internet", "telefon"] }
  | .WATER =>
    { primary := ["su", "water", "wasser", "iski", "aqualogy", "waterworks",
                  "su faturası", "water bill", "wasserrechnung"],
      secondary := ["tüketim", "consumption", "verbrauch", "meter", "sayaç", "zähler",
                    "municipal", "belediye", "stadtwerke"],
      companies := ["İSKİ", "SUSKI", "AQUALOGY", "WATERWORKS", "MUNICIPAL WATER",
                    "STADTWERKE", "WATER AUTHORITY", "WATER DISTRICT"],
      patterns := [.seq (ralt3 "su" "water" "wasser") (.seq (.anyUpTo 20) billRx),
                   m3Rx,
                   .seq (rlit "water") (.seq (.anyUpTo 1) (rlit "works"))],
      negativeKeywords := ["elektrik", "electric", "strom", "gaz", "gas", "telefon"] }
  | .GAS =>
    { primary := ["doğalgaz", "gaz", "gas", "erdgas", "natural gas",
                  "gaz faturası", "gas bill", "gasrechnung"],
      secondary := ["tüketim", "consumption", "verbrauch", "meter", "sayaç", "zähler",
                    "m3", "metreküp", "cubic meter"],
      companies := ["İGDAŞ", "BOTAŞ", "SHELL", "BP", "TOTAL", "ENI",
                    "GAZPROM", "E.ON GAS", "STADTWERKE"],
      patterns := [.alt (.seq (rlit "doğal") (.seq (.anyUpTo 1) (rlit "gaz")))
                     (.alt (.seq (rlit "natural") (.seq (.anyUpTo 1) (rlit "gas")))
                       (rlit "erdgas")),
                   .seq (.alt (rlit "gaz") (rlit "gas")) (.seq (.anyUpTo 20) billRx),
                   .seq m3Rx (.seq (.anyUpTo 20) (.alt (rlit "gaz") (rlit "gas")))],
      negativeKeywords := ["elektrik", "electric", "su", "water", "telefon"] }
  | .INTERNET =>
    { primary := ["internet", "broadband", "wifi", "fiber", "adsl", "vdsl",
                  "internet faturası", "internet bill", "internetrechnung"],
      secondary := ["mbps", "gb", "unlimited", "sınırsız", "unbegrenzt",
                    "paket", "package", "paket", "modem", "router"],
      companies := ["TÜRK TELEKOM", "VODAFONE", "TURKCELL", "SUPERONLINE",
                    "TELEKOM", "COMCAST", "VERIZON", "AT&T", "ORANGE"],
      patterns := [.seq (.alt (rlit "internet")
                     (ralt3 "broadband" "fiber" "adsl")) (.seq (.anyUpTo 20) billRx),
                   .seq .digits1 (.seq (.anyUpTo 1) (.alt (rlit "mbps") (rlit "gb"))),
                   .alt (rlit "wifi") (rlit "wi-fi")],
      negativeKeywords := ["elektrik", "su", "gaz", "kredi", "credit"] }
  | .PHONE =>
    { primary := ["telefon", "phone", "mobile", "cellular", "gsm",
                  "telefon faturası", "phone bill", "telefonrechnung"],
      secondary := ["dakika", "minutes", "minuten", "sms", "mms", "data",
                    "hat", "line", "nummer", "arama", "calls", "anrufe"],
      companies := ["TURKCELL", "VODAFONE", "TÜRK TELEKOM", "TELEKOM",
                    "VERIZON", "AT&T", "T-MOBILE", "ORANGE", "O2"],
      patterns := [.seq (ralt3 "telefon" "phone" "mobile") (.seq (.anyUpTo 20) billRx),
                   .seq .digits1 (.seq (.anyUpTo 1) (ralt3 "dakika" "minutes" "minuten")),
                   .alt (rlit "gsm") (rlit "cellular")],
      negativeKeywords := ["internet", "elektrik", "su", "gaz"] }
  | .CABLE =>
    { primary := ["kablo", "cable", "tv", "satellite", "uydu",
                  "kablo tv", "cable tv", "kabelfernsehen"],
      secondary := ["kanal", "channels", "kanäle", "broadcast", "yayın",
                    "digital", "hd", "4k", "premium"],
      companies := ["DIGITURK", "TIVIBU", "DSAT", "COMCAST", "SPECTRUM",
                    "SKY", "CANAL+", "ZIGGO"],
      patterns := [.seq (.alt (rlit "kablo") (rlit "cable"))
                     (.seq (.anyUpTo 1) (.alt (rlit "tv") (rlit "television"))),
                   .alt (rlit "uydu") (rlit "satellite"),
                   .seq (ralt3 "kanal" "channels" "kanäle")
                     (.seq (.anyUpTo 20) (.alt (rlit "paket") (rlit "package")))],
      negativeKeywords := ["internet", "telefon", "elektrik"] }
  | .INSURANCE =>
    { primary := ["sigorta", "insurance", "versicherung", "poliçe", "policy",
                  "sigorta faturası", "insurance bill", "versicherungsrechnung"],
      secondary := ["prim", "premium", "prämie", "kasko", "dask", "hayat",
                    "sağlık", "health", "gesundheit", "auto", "car"],
      companies := ["AXA", "ALLIANZ", "ZURICH", "MAPFRE", "AKSIGORTA",
                    "ANADOLU SIGORTA", "ALLIANZ TÜRKIYE"],
      patterns := [.seq (ralt3 "sigorta" "insurance" "versicherung")
                     (.seq (.anyUpTo 20) billRx),
                   ralt3 "prim" "premium" "prämie",
                   .alt (rlit "poliçe") (rlit "policy")],
      negativeKeywords := ["elektrik", "su", "gaz", "telefon"] }
  | .RENT =>
    { primary := ["kira", "rent", "miete", "rental", "lease",
                  "kira faturası", "rent bill", "mietrechnung"],
      secondary := ["apartment", "daire", "wohnung", "ev", "house", "haus",
                    "aylık", "monthly", "monatlich", "deposit", "kaution"],
      companies := ["REAL ESTATE", "PROPERTY", "EMLAK", "IMMOBILIEN",
                    "PROPERTY MANAGEMENT", "ESTATE AGENCY"],
      patterns := [.seq (ralt3 "kira" "rent" "miete") (.seq (.anyUpTo 20) billRx),
                   ralt3 "apartment" "daire" "wohnung",
                   .seq (ralt3 "monthly" "aylık" "monatlich")
                     (.seq (.anyUpTo 20) (ralt3 "rent" "kira" "miete"))],
      negativeKeywords := ["elektrik", "su", "telefon", "internet"] }
  | .CREDIT_CARD =>
    { primary := ["kredi kartı", "credit card", "kreditkarte", "visa", "mastercard",
                  "kredi kartı faturası", "credit card bill", "kreditkartenrechnung"],
      secondary := ["limit", "minimum", "payment", "ödeme", "zahlung",
                    "balance", "bakiye", "saldo", "interest", "faiz"],
      companies := ["AKBANK", "GARANTI", "İŞ BANKASI", "YAPIKRED",
                    "CHASE", "WELLS FARGO", "DEUTSCHE BANK", "COMMERZBANK"],
      patterns := [.alt (.seq (rlit "kredi") (.seq (.anyUpTo 1) (rlit "kart")))
                     (.alt (.seq (rlit "credit") (.seq (.anyUpTo 1) (rlit "card")))
                       (rlit "kreditkarte")),
                   .alt (rlit "visa")
                     (.alt (rlit "mastercard")
                       (.seq (rlit "american") (.seq (.anyUpTo 1) (rlit "express")))),
                   .alt (.seq (rlit "minimum") (.seq (.anyUpTo 1) (rlit "payment")))
                     (.seq (rlit "minimum") (.seq (.anyUpTo 1) (rlit "ödeme")))],
      negativeKeywords := ["elektrik", "su", "gaz", "internet"] }
  | .UNKNOWN =>
    { primary := [], secondary := [], companies := [], patterns := [],
      negativeKeywords := [] }

/-- Model of `AIBillClassifier.normalizeText`: lower-case, replace every character
outside `[\w\s]` by a space, collapse whitespace runs, trim. -/
def normalizeText (text : List Char) : List Char :=
  jsTrim (collapseSpaces
    ((jsLower text).map (fun c => if isWordChar c || isSpaceJS c then c else ' ')))

/-- The optional classification context. -/
structure ClassifyContext where
  currency : Option Currency := none
  country : Option Country := none
  companyHint : Option (List Char) := none
  amountHint : Option ℚ := none

/-- The `getCountryCompanies` table (unlisted countries give `[]`). -/
def getCountryCompanies : Country → List String
  | .TR => ["TEDAŞ", "İGDAŞ", "İSKİ", "TURKCELL", "VODAFONE", "TÜRK TELEKOM"]
  | .DE => ["E.ON", "RWE", "VATTENFALL", "TELEKOM", "STADTWERKE"]
  | .US => ["VERIZON", "AT&T", "COMCAST", "PG&E", "EDISON"]
  | .UK => ["BT", "SKY", "BRITISH GAS", "EDF ENERGY"]
  | _ => []

def turkishCompanies : List String := ["TEDAŞ", "İGDAŞ", "İSKİ", "TURKCELL", "VODAFONE"]

/-- Model of `AIBillClassifier.calculateContextBoost`.  The amount-hint branch tests
`[InvoiceType.ELECTRICITY, InvoiceType.GAS].includes(rules as any)`, which
compares the rules OBJECT against enum strings and is never true, so that
+0.05 boost can never fire (`amountBoostTypeTest` below).  A present
`amountHint` of 0 is falsy in JavaScript and skips the branch. -/
def calculateContextBoost (rules : ClassificationKeywords)
    (context : ClassifyContext) : ℚ :=
  let b1 : ℚ :=
    match context.currency with
    | some .TRY =>
      if rules.companies.any (fun c => turkishCompanies.contains c) then q 1 10 else 0
    | _ => 0
  let amountBoostTypeTest := false
  let b2 : ℚ :=
    match context.amountHint with
    | some a => if (a ≠ 0 ∧ 100 < a) ∧ amountBoostTypeTest = true then q 1 20 else 0
    | none => 0
  let b3 : ℚ :=
    match context.country with
    | some ctry =>
      if rules.companies.any (fun c => (getCountryCompanies ctry).contains c) then
        q 1 10
      else 0
    | none => 0
  qadd (qadd b1 b2) b3

/-- Result of `calculateTypeScore`: the clamped score and the first matched
known company (with its fixed 0.9 confidence). -/
structure TypeScoreResult where
  score : ℚ
  companyMatch : Option (List Char × ℚ)
deriving DecidableEq, Repr

/-- Model of `AIBillClassifier.calculateTypeScore`: 0.4 per primary keyword, 0.2 per
secondary keyword, 0.3 per matching regex, 0.5 once for the first known
company found, minus 0.3 per negative keyword, plus the context boost,
clamped into `[0, 1]`. -/
def calculateTypeScore (text : List Char) (rules : ClassificationKeywords)
    (context : Option ClassifyContext) : TypeScoreResult :=
  let primaryMatches := (rules.primary.filter
    (fun kw => containsSub text (jsLower kw.toList))).length
  let secondaryMatches := (rules.secondary.filter
    (fun kw => containsSub text (jsLower kw.toList))).length
  let patternMatches := (rules.patterns.filter (fun p => p.test text)).length
  let companyMatch := rules.companies.findSome? (fun c =>
    if containsSub text (jsLower c.toList) then some (c.toList, q 9 10) else none)
  let negativeMatches := (rules.negativeKeywords.filter
    (fun kw => containsSub text (jsLower kw.toList))).length
  let boost := match context with
    | some ctx => calculateContextBoost rules ctx
    | none => 0
  let score :=
    qadd (qsub
      (qadd (qadd (qadd (qmul (primaryMatches : ℚ) (q 4 10))
                        (qmul (secondaryMatches : ℚ) (q 2 10)))
                  (qmul (patternMatches : ℚ) (q 3 10)))
            (match companyMatch with | some _ => q 5 10 | none => 0))
      (qmul (negativeMatches : ℚ) (q 3 10))) boost
  { score := qmax 0 (qmin score 1), companyMatch := companyMatch }

/-- Per-type final score of a classification call. -/
def classifyScores (text : List Char) (context : Option ClassifyContext)
    (t : InvoiceType) : ℚ :=
  (calculateTypeScore (normalizeText text) (CLASSIFICATION_RULES t) context).score

/-- One step of `Object.entries(scores).reduce((a, b) => scores[a] > scores[b] ? a : b)`:
keeps the accumulator only on a strictly larger score, so ties move to the
later entry. -/
def pickLater {α : Type} (f : α → ℚ) (a b : α) : α := if f b < f a then a else b

/-- The `reduce` over the non-empty entry list. -/
def reduceBest {α : Type} (f : α → ℚ) : List α → Option α
  | [] => none
  | a :: l => some (l.foldl (pickLater f) a)

/-- Result of `classifyBill` (the human-readable `reasoning` string is not
modelled; no claim mentions its content). -/
structure ClassificationResult where
  type : InvoiceType
  confidence : ℚ
  companyName : Option (List Char)
  companyConfidence : Option ℚ
deriving DecidableEq, Repr

/-- Model of `AIBillClassifier.classifyBill`: score every type in rule-table order,
track the best company match (strictly larger confidence replaces), pick the
best-scoring type with the `reduce` above, return it with its score. -/
def classifyBill (text : List Char) (context : Option ClassifyContext) :
    ClassificationResult :=
  let normalizedText := normalizeText text
  let results := typeOrder.map (fun t =>
    (t, calculateTypeScore normalizedText (CLASSIFICATION_RULES t) context))
  let bestCompany := results.foldl
    (fun (acc : Option (List Char × ℚ)) r =>
      match r.2.companyMatch with
      | some cm =>
        match acc with
        | none => some cm
        | some bc => if bc.2 < cm.2 then some cm else acc
      | none => acc)
    none
  let bestType := (reduceBest (classifyScores text context) typeOrder).getD .UNKNOWN
  { type := bestType,
    confidence := classifyScores text context bestType,
    companyName := bestCompany.map (fun p => p.1),
    companyConfidence := bestCompany.map (fun p => p.2) }

/-- The context boost a classification call applies to one type (zero when
no context object is passed). -/
def contextBoostOf (context : Option ClassifyContext) (t : InvoiceType) : ℚ :=
  match context with
  | some ctx => calculateContextBoost (CLASSIFICATION_RULES t) ctx
  | none => 0

/-- Nothing of type `t`'s rule set matches the (normalized) text: no primary
keyword, no secondary keyword, no regex pattern and no known company. -/
def noRuleMatches (ntext : List Char) (t : InvoiceType) : Prop :=
  ((CLASSIFICATION_RULES t).primary.filter
    (fun kw => containsSub ntext (jsLower kw.toList))).length = 0 ∧
  ((CLASSIFICATION_RULES t).secondary.filter
    (fun kw => containsSub ntext (jsLower kw.toList))).length = 0 ∧
  ((CLASSIFICATION_RULES t).patterns.filter (fun p => p.test ntext)).length = 0 ∧
  (CLASSIFICATION_RULES t).companies.findSome? (fun c =>
    if containsSub ntext (jsLower c.toList) then some (c.toList, q 9 10) else none) = none

/- ## Company extraction (`AIBillClassifier.extractCompanyName`) -/

/-- The uppercase class `[A-ZÇĞİÖŞÜ]` of the generic company patterns. -/
def isUpperTR (c : Char) : Bool :=
  ('A' ≤ c && c ≤ 'Z') || c = 'Ç' || c = 'Ğ' || c = 'İ' || c = 'Ö' || c = 'Ş' || c = 'Ü'

/-- The lowercase class `[a-zçğıöşü]`. -/
def isLowerTR (c : Char) : Bool :=
  ('a' ≤ c && c ≤ 'z') || c = 'ç' || c = 'ğ' || c = 'ı' || c = 'ö' || c = 'ş' || c = 'ü'

/-- The legal-entity suffix alternation `(?:Ltd|Inc|Corp|Company|Şirketi|GmbH|AG)`
in source order. -/
def legalSuffixes : List String := ["Ltd", "Inc", "Corp", "Company", "Şirketi", "GmbH", "AG"]

/-- Attempt the first generic pattern
`([A-ZÇĞİÖŞÜ][a-zçğıöşü]+ (?:Ltd|Inc|Corp|Company|Şirketi|GmbH|AG))`
at the current position. -/
def matchCompany1At (s : List Char) : Option (List Char × Nat) :=
  match s with
  | [] => none
  | c :: r =>
    if isUpperTR c then
      let low := r.takeWhile isLowerTR
      if low ≠ [] then
        match r.drop low.length with
        | ' ' :: r3 =>
          (legalSuffixes.findSome? (fun suf =>
            if suf.toList.isPrefixOf r3 then some suf.toList else none)).map
            (fun sufl =>
              let m := c :: low ++ ' ' :: sufl
              (m, m.length))
        | _ => none
      else none
    else none

/-- Greedy loop for `(?:\s+[A-ZÇĞİÖŞÜ]{2,})*` of the all-caps pattern. -/
def capsLoop : Nat → List Char → List Char → List Char × List Char
  | 0, acc, rest => (acc, rest)
  | fuel + 1, acc, rest =>
    let spaces := rest.takeWhile isSpaceJS
    if spaces ≠ [] then
      let r2 := rest.drop spaces.length
      let run2 := r2.takeWhile isUpperTR
      if 2 ≤ run2.length then
        capsLoop fuel (acc ++ spaces ++ run2) (r2.drop run2.length)
      else (acc, rest)
    else (acc, rest)

/-- Attempt the second generic pattern
`([A-ZÇĞİÖŞÜ]{2,}(?:\s+[A-ZÇĞİÖŞÜ]{2,})*)` at the current position. -/
def matchCapsAt (s : List Char) : Option (List Char × Nat) :=
  let run := s.takeWhile isUpperTR
  if 2 ≤ run.length then
    let p := capsLoop s.length run (s.drop run.length)
    some (p.1, p.1.length)
  else none

/-- JavaScript `text.match(pattern)` with the global flag: all matches, left to right. -/
def scanMatches (m : List Char → Option (List Char × Nat)) :
    Nat → List Char → List (List Char)
  | 0, _ => []
  | _ + 1, [] => []
  | fuel + 1, s =>
    match m s with
    | some (mt, len) => mt :: scanMatches m fuel (s.drop len)
    | none => scanMatches m fuel (s.drop 1)

/-- The `matches.reduce((a, b) => a.length > b.length ? a : b)` step: the
longest match, later entries winning ties. -/
def longestReduce (ms : List (List Char)) : List Char :=
  match ms with
  | [] => []
  | m :: rest => rest.foldl (fun a b => if b.length < a.length then a else b) m

/-- Model of `AIBillClassifier.extractCompanyName`: known companies of the given type
first (on the normalized text, confidence 0.95), then the two generic
patterns on the RAW text (longest match, confidence 0.7). -/
def extractCompanyName (text : List Char) (type? : Option InvoiceType) :
    Option (List Char × ℚ) :=
  let normalizedText := normalizeText text
  let known : Option (List Char × ℚ) :=
    match type? with
    | some t =>
      (CLASSIFICATION_RULES t).companies.findSome? (fun c =>
        if containsSub normalizedText (jsLower c.toList) then
          some (c.toList, q 19 20)
        else none)
    | none => none
  match known with
  | some k => some k
  | none =>
    let m1 := scanMatches matchCompany1At (text.length + 1) text
    if m1 ≠ [] then some (jsTrim (longestReduce m1), q 7 10)
    else
      let m2 := scanMatches matchCapsAt (text.length + 1) text
      if m2 ≠ [] then some (jsTrim (longestReduce m2), q 7 10)
      else none

/- ## Bridge lemmas: the kernel-computable rational operations agree with
the `ℚ` field operations -/

theorem qadd_eq (a b : ℚ) : qadd a b = a + b := by
  rw [qadd, Rat.mkRat_eq_div]
  have ha : (a.den : ℚ) ≠ 0 := Nat.cast_ne_zero.mpr a.den_nz
  have hb : (b.den : ℚ) ≠ 0 := Nat.cast_ne_zero.mpr b.den_nz
  conv_rhs => rw [← Rat.num_div_den a, ← Rat.num_div_den b]
  field_simp

theorem qmul_eq (a b : ℚ) : qmul a b = a * b := by
  rw [qmul, Rat.mkRat_eq_div]
  have ha : (a.den : ℚ) ≠ 0 := Nat.cast_ne_zero.mpr a.den_nz
  have hb : (b.den : ℚ) ≠ 0 := Nat.cast_ne_zero.mpr b.den_nz
  conv_rhs => rw [← Rat.num_div_den a, ← Rat.num_div_den b]
  field_simp

theorem qsub_eq (a b : ℚ) : qsub a b = a - b := by
  rw [qsub, Rat.mkRat_eq_div]
  have ha : (a.den : ℚ) ≠ 0 := Nat.cast_ne_zero.mpr a.den_nz
  have hb : (b.den : ℚ) ≠ 0 := Nat.cast_ne_zero.mpr b.den_nz
  conv_rhs => rw [← Rat.num_div_den a, ← Rat.num_div_den b]
  field_simp
  ring

theorem qmin_eq (a b : ℚ) : qmin a b = min a b := (min_def a b).symm

theorem qmax_eq (a b : ℚ) : qmax a b = max a b := (max_def a b).symm

theorem q_eq (n : Int) (d : Nat) : q n d = (n : ℚ) / (d : ℚ) := Rat.mkRat_eq_div n d

/- ## General lemmas about the selection folds -/

/-- The `reduce` accumulator never loses score: the fold result dominates
the start value and every element of the list. -/
theorem foldl_pickLater_le {α : Type} (f : α → ℚ) :
    ∀ (l : List α) (a : α),
      f a ≤ f (l.foldl (pickLater f) a) ∧
      ∀ x ∈ l, f x ≤ f (l.foldl (pickLater f) a) := by
  intro l
  induction l with
  | nil => intro a; simp
  | cons b t ih =>
    intro a
    obtain ⟨h1, h2⟩ := ih (pickLater f a b)
    have hab : f a ≤ f (pickLater f a b) := by
      unfold pickLater
      split
      · exact le_refl _
      · next h => exact le_of_not_lt h
    have hbb : f b ≤ f (pickLater f a b) := by
      unfold pickLater
      split
      · next h => exact le_of_lt h
      · exact le_refl _

    refine ⟨le_trans hab h1, ?_⟩
    intro x hx
    rcases List.mem_cons.mp hx with rfl | hx
    · exact le_trans hbb h1
    · exact h2 x hx

/-- The `reduce` result is the LAST maximizer: the list splits around it and
everything after it scores strictly less. -/
theorem foldl_pickLater_split {α : Type} (f : α → ℚ) :
    ∀ (l : List α) (a : α),
      ∃ l₁ l₂, a :: l = l₁ ++ (l.foldl (pickLater f) a) :: l₂ ∧
        ∀ x ∈ l₂, f x < f (l.foldl (pickLater f) a) := by
  intro l
  induction l with
  | nil => intro a; exact ⟨[], [], rfl, by simp⟩
  | cons b t ih =>
    intro a
    simp only [List.foldl_cons]
    by_cases h : f b < f a
    · have hpick : pickLater f a b = a := if_pos h
      rw [hpick]
      obtain ⟨l₁, l₂, hdec, hstrict⟩ := ih a
      cases l₁ with
      | nil =>
        simp only [List.nil_append] at hdec
        have hhead : a = t.foldl (pickLater f) a := (List.cons.injEq _ _ _ _).mp hdec |>.1
        have htail : t = l₂ := (List.cons.injEq _ _ _ _).mp hdec |>.2
        refine ⟨[], b :: t, ?_, ?_⟩
        · simp only [List.nil_append]
          rw [← hhead]
        · intro x hx
          rcases List.mem_cons.mp hx with rfl | hx
          · rw [← hhead]; exact h
          · rw [htail] at hx; exact hstrict x hx
      | cons c l₁r =>
        simp only [List.cons_append] at hdec
        have hhead : a = c := (List.cons.injEq _ _ _ _).mp hdec |>.1
        have htail : t = l₁r ++ t.foldl (pickLater f) a :: l₂ :=
          (List.cons.injEq _ _ _ _).mp hdec |>.2
        refine ⟨a :: b :: l₁r, l₂, ?_, hstrict⟩
        simp only [List.cons_append]
        rw [← htail]
    · have hpick : pickLater f a b = b := if_neg h
      rw [hpick]
      obtain ⟨l₁, l₂, hdec, hstrict⟩ := ih b
      exact ⟨a :: l₁, l₂, by rw [List.cons_append, ← hdec], hstrict⟩

/-- The maximum-selection loop: the final value dominates the start value
and every valid match value, and is either the start value or one of the
valid match values. -/
theorem foldl_bestStep_spec :
    ∀ (ms : List (List Char)) (acc : ℚ × List Char),
      acc.1 ≤ (ms.foldl bestStep acc).1 ∧
      ((ms.foldl bestStep acc).1 = acc.1 ∨ (ms.foldl bestStep acc).1 ∈ matchValues ms) ∧
      ∀ v ∈ matchValues ms, v ≤ (ms.foldl bestStep acc).1 := by
  intro ms
  induction ms with
  | nil => intro acc; simp [matchValues]
  | cons m rest ih =>
    intro acc
    simp only [List.foldl_cons]
    rcases hp : parseNumericAmount m ['a', 'u', 't', 'o'] with _ | v
    · -- NaN: the comparison is false and the value is dropped
      have hstep : bestStep acc m = acc := by
        simp [bestStep, hp, numGT]
      rw [hstep]
      obtain ⟨ih1, ih2, ih3⟩ := ih acc
      refine ⟨ih1, ?_, ?_⟩
      · rcases ih2 with h2 | h2
        · exact Or.inl h2
        · right; simp [matchValues, hp]; simpa [matchValues] using h2
      · intro v hv
        have : v ∈ matchValues rest := by
          simpa [matchValues, hp] using hv
        exact ih3 v this
    · have hmv : matchValues (m :: rest) = v :: matchValues rest := by
        simp [matchValues, hp]
      by_cases hlt : acc.1 < v
      · have hstep : bestStep acc m = (v, m) := by
          simp [bestStep, hp, numGT, hlt]
        rw [hstep]
        obtain ⟨ih1, ih2, ih3⟩ := ih (v, m)
        refine ⟨le_trans (le_of_lt hlt) ih1, ?_, ?_⟩
        · rcases ih2 with h2 | h2
          · right; rw [hmv]; exact List.mem_cons.mpr (Or.inl h2)
          · right; rw [hmv]; exact List.mem_cons.mpr (Or.inr h2)
        · intro w hw
          rw [hmv] at hw
          rcases List.mem_cons.mp hw with rfl | hw
          · exact ih1
          · exact ih3 w hw
      · have hstep : bestStep acc m = acc := by
          simp [bestStep, hp, numGT, hlt]
        rw [hstep]
        obtain ⟨ih1, ih2, ih3⟩ := ih acc
        refine ⟨ih1, ?_, ?_⟩
        · rcases ih2 with h2 | h2
          · exact Or.inl h2
          · right; rw [hmv]; exact List.mem_cons.mpr (Or.inr h2)
        · intro w hw
          rw [hmv] at hw
          rcases List.mem_cons.mp hw with rfl | hw
          · exact le_trans (le_of_not_lt hlt) ih1
          · exact ih3 w hw

/-- The selected value of `bestOfMatches` is nonnegative; it is zero or a
valid match value; and it dominates every valid match value. -/
theorem bestOfMatches_spec (ms : List (List Char)) :
    0 ≤ (bestOfMatches ms).1 ∧
    ((bestOfMatches ms).1 = 0 ∨ (bestOfMatches ms).1 ∈ matchValues ms) ∧
    ∀ v ∈ matchValues ms, v ≤ (bestOfMatches ms).1 :=
  foldl_bestStep_spec ms (0, [])

/-- A type whose rule set matches nothing and whose context boost is zero
scores 0 and reports no company. -/
theorem calculateTypeScore_of_no_match (ntext : List Char)
    (rules : ClassificationKeywords) (context : Option ClassifyContext)
    (h1 : (rules.primary.filter (fun kw => containsSub ntext (jsLower kw.toList))).length = 0)
    (h2 : (rules.secondary.filter (fun kw => containsSub ntext (jsLower kw.toList))).length = 0)
    (h3 : (rules.patterns.filter (fun p => p.test ntext)).length = 0)
    (h4 : rules.companies.findSome? (fun c =>
      if containsSub ntext (jsLower c.toList) then some (c.toList, q 9 10) else none) = none)
    (hb : (match context with
           | some ctx => calculateContextBoost rules ctx
           | none => 0) = 0) :
    calculateTypeScore ntext rules context = ⟨0, none⟩ := by
  simp only [calculateTypeScore, h1, h2, h3, h4, hb]
  simp only [qadd_eq, qsub_eq, qmul_eq, qmin_eq, qmax_eq, q_eq, Nat.cast_zero]
  have hn : (0 : ℚ) ≤ ((rules.negativeKeywords.filter
      (fun kw => containsSub ntext (jsLower kw.toList))).length : ℚ) * ((3 : ℤ) / (10 : ℕ)) := by
    positivity
  set x : ℚ := ((rules.negativeKeywords.filter
      (fun kw => containsSub ntext (jsLower kw.toList))).length : ℚ) * ((3 : ℤ) / (10 : ℕ)) with hx
  have h0 : (0 : ℚ) * ((4 : ℤ) / (10 : ℕ)) + 0 * ((2 : ℤ) / (10 : ℕ)) +
      0 * ((3 : ℤ) / (10 : ℕ)) + 0 - x + 0 = -x := by ring
  rw [h0, min_eq_left (by linarith : -x ≤ (1 : ℚ)), max_eq_left (by linarith : -x ≤ (0 : ℚ))]

/- ## Claim theorems -/

set_option maxRecDepth 400000 in
/-- C1, counterexample: on the empty text every type ties at the maximum
score 0, yet classification returns UNKNOWN — the LAST-declared type — and
not ELECTRICITY, the earliest-declared type, as the claim requires. -/
theorem c1_counterexample_tie_returns_latest :
    (classifyBill [] none).type = .UNKNOWN ∧
    classifyScores [] none .ELECTRICITY = classifyScores [] none .UNKNOWN ∧
    (typeOrder.all (fun t =>
      decide (classifyScores [] none t ≤ classifyScores [] none .ELECTRICITY))) = true ∧
    InvoiceType.UNKNOWN ≠ InvoiceType.ELECTRICITY := by decide

/-- C1 (amended): the returned type always attains the maximum final score,
and whenever other types tie at the maximum, the LATEST-declared type in the
fixed enumeration order is returned (everything after the winner in
declaration order scores strictly less; ties can only sit before it). -/
theorem c1_classifyBill_last_maximizer_wins (text : List Char)
    (context : Option ClassifyContext) :
    ∃ l₁ l₂,
      typeOrder = l₁ ++ (classifyBill text context).type :: l₂ ∧
      (∀ t ∈ typeOrder, classifyScores text context t ≤
        classifyScores text context (classifyBill text context).type) ∧
      ∀ t ∈ l₂, classifyScores text context t <
        classifyScores text context (classifyBill text context).type := by
  have htype : (classifyBill text context).type =
      List.foldl (pickLater (classifyScores text context)) .ELECTRICITY
        [.WATER, .GAS, .INTERNET, .PHONE, .CABLE, .INSURANCE, .RENT,
         .CREDIT_CARD, .UNKNOWN] := rfl
  obtain ⟨l₁, l₂, hdec, hstrict⟩ :=
    foldl_pickLater_split (classifyScores text context)
      [.WATER, .GAS, .INTERNET, .PHONE, .CABLE, .INSURANCE, .RENT,
       .CREDIT_CARD, .UNKNOWN] .ELECTRICITY
  obtain ⟨hle0, hle⟩ :=
    foldl_pickLater_le (classifyScores text context)
      [.WATER, .GAS, .INTERNET, .PHONE, .CABLE, .INSURANCE, .RENT,
       .CREDIT_CARD, .UNKNOWN] .ELECTRICITY
  refine ⟨l₁, l₂, ?_, ?_, ?_⟩
  · rw [htype]; exact hdec
  · intro t ht
    rw [htype]
    have ht' : t = .ELECTRICITY ∨ t ∈
        ([.WATER, .GAS, .INTERNET, .PHONE, .CABLE, .INSURANCE, .RENT,
          .CREDIT_CARD, .UNKNOWN] : List InvoiceType) := by
      simpa [typeOrder] using ht
    rcases ht' with rfl | ht'
    · exact hle0
    · exact hle t ht'
  · intro t ht
    rw [htype]
    exact hstrict t ht

/-- C2 (code bug): the text "02/30/2024" (under the en-US locale) is
accepted as a due date even though February 30 is not a real calendar date:
the range checks pass and the JavaScript `Date` constructor rolls the value
over to 2024-03-01 instead of producing an invalid date, so the
`!isNaN(...)` guard never rejects it. -/
theorem c2_parseDate_accepts_feb30 :
    parseDate ['e', 'n'] ['U', 'S'] "02/30/2024".toList =
      some ⟨30, 2, 2024, "02/30/2024".toList,
        ['M', 'M', '/', 'D', 'D', '/', 'Y', 'Y', 'Y', 'Y']⟩ ∧
    isRealCalendarDate 30 2 2024 = false ∧
    jsDateYMD 2024 2 30 = (2024, 3, 1) := by decide

set_option maxRecDepth 400000 in
/-- C3, counterexample: the text "elektrik tüketimi TEDAŞ" contains both
required substrings, classifies as ELECTRICITY, but with confidence 0.4,
not ≥ 0.9 — normalization destroys the Turkish characters, so the keywords
"elektrik tüketimi" and the company "TEDAŞ" never match. -/
theorem c3_counterexample_confidence_low :
    (classifyBill "elektrik tüketimi TEDAŞ".toList none).type = .ELECTRICITY ∧
    (classifyBill "elektrik tüketimi TEDAŞ".toList none).confidence = q 2 5 ∧
    ¬ (q 9 10 ≤ (classifyBill "elektrik tüketimi TEDAŞ".toList none).confidence) := by
  decide

set_option maxRecDepth 400000 in
/-- C3 (amended): on the scenario text the classifier returns ELECTRICITY
with confidence 0.4 (only the bare keyword "elektrik" survives
normalization) and no company from the rule tables; the company "TEDAŞ" is
recovered only by `extractCompanyName`'s generic all-caps fallback with
confidence 0.7, not by a known-company match. -/
theorem c3_tedas_scenario_actual :
    classifyBill "elektrik tüketimi TEDAŞ".toList none =
      ⟨.ELECTRICITY, q 2 5, none, none⟩ ∧
    extractCompanyName "elektrik tüketimi TEDAŞ".toList (some .ELECTRICITY) =
      some ("TEDAŞ".toList, q 7 10) := by
  decide

set_option maxRecDepth 400000 in
/-- C4, counterexample: with country hint TR (primary currency TRY) and no
currency hint, the order demanded by the claim would find "10 TL" and
return TRY 10; the code never consults the primary currency and returns
EUR 5 from the fixed USD→EUR→TRY→GBP entry order. -/
theorem c4_counterexample_primary_ignored :
    getPrimaryCurrency ['T', 'R'] = .TRY ∧
    specAmountAdvanced "€ 5 and 10 TL".toList none (some ['T', 'R']) =
      some ⟨10, .TRY, ['1', '0']⟩ ∧
    parseAmountAdvanced "€ 5 and 10 TL".toList none (some ['T', 'R']) =
      some ⟨5, .EUR, ['5']⟩ := by decide

/-- C4 (amended): the try-order is the explicit hint first (when its
pattern entry exists), then the remaining pattern-table currencies in the
fixed entry order USD, EUR, TRY, GBP, skipping the hint; the locale's
primary currency is computed but never used. The result is the first
currency in this order with a valid match. -/
theorem c4_tryOrder_hint_then_entries (text : List Char) (hint : Option Currency)
    (country : Option (List Char)) :
    parseAmountAdvanced text hint country =
      firstSome (fun c => tryParseWithPatterns text c (globalPatterns c))
        (codeTryOrder hint) := by
  cases hint with
  | none =>
    simp [parseAmountAdvanced, codeTryOrder, amountEntries, tryRemaining, firstSome]
  | some c =>
    cases c <;>
      simp [parseAmountAdvanced, codeTryOrder, amountEntries, tryRemaining, firstSome,
        globalPatterns, List.isEmpty]

/-- C5, counterexample: the substring "89.99" ends in a period followed by
two digits, so by the claim the period is the decimal separator and the
value is 89.99; under the de-DE locale key the code never applies that rule
and parses 8999. -/
theorem c5_counterexample_locale_branch :
    parseNumericAmount "89.99".toList "de-DE".toList = some 8999 ∧
    specResolveNumeric "89.99".toList "de-DE".toList = some (q 8999 100) ∧
    (8999 : ℚ) ≠ q 8999 100 := by decide

/-- C5 (amended): the ends-in-comma and ends-in-period rules apply only in
`'auto'` mode (the advanced path), whose fallback strips commas and reads
the period as decimal regardless of locale; a locale-keyed call (the
`parseAmount` path) ignores both rules and uses the locale convention
alone — the European chain exactly when the key contains "DE" or "TR". -/
theorem c5_resolution_amended (s locale : List Char) :
    parseNumericAmount s locale = specResolveNumericAmended s locale := rfl

/-- C6, counterexample: for "USD 500 $20" the `$`-prefixed pattern is tried
first and returns 20, even though the USD-prefixed pattern of the same
currency matches 500 > 20 — the maximum is NOT taken across all of the
currency's surface patterns. -/
theorem c6_counterexample_first_pattern :
    tryParseWithPatterns "USD 500 $20".toList .USD (globalPatterns .USD) =
      some ⟨20, .USD, ['2', '0']⟩ ∧
    parseAmountAdvanced "USD 500 $20".toList none none =
      some ⟨20, .USD, ['2', '0']⟩ ∧
    (500 : ℚ) ∈ patternValues (.pre ['U', 'S', 'D'] sepComma decPeriod)
      "USD 500 $20".toList ∧
    (20 : ℚ) < 500 := by decide

/-- C6 (amended): for every text and currency, the extractor returns the
largest valid value among the matches of the FIRST pattern (in the
currency's fixed pattern order) that yields a positive-value match; earlier
patterns yield no positive value, and later patterns are never consulted. -/
theorem c6_largest_within_first_productive_pattern
    (text : List Char) (c : Currency) (ps : List AmtPattern) (a : Amount)
    (h : tryParseWithPatterns text c ps = some a) :
    a.currency = c ∧ 0 < a.value ∧
    ∃ ps₁ p ps₂,
      ps = ps₁ ++ p :: ps₂ ∧
      (∀ p' ∈ ps₁, ∀ v ∈ patternValues p' text, v ≤ 0) ∧
      a.value ∈ patternValues p text ∧
      ∀ v ∈ patternValues p text, v ≤ a.value := by
  induction ps with
  | nil => simp [tryParseWithPatterns] at h
  | cons p ps ih =>
    simp only [tryParseWithPatterns] at h
    by_cases hc : amtMatches p text ≠ [] ∧ 0 < (bestOfMatches (amtMatches p text)).1
    · rw [if_pos hc] at h
      obtain ⟨hne, hpos⟩ := hc
      obtain ⟨h0, hmem, hub⟩ := bestOfMatches_spec (amtMatches p text)
      have ha : a = ⟨(bestOfMatches (amtMatches p text)).1, c,
          (bestOfMatches (amtMatches p text)).2⟩ := by
        injection h with h
        exact h.symm
      subst ha
      refine ⟨rfl, hpos, [], p, ps, rfl, by simp, ?_, hub⟩
      rcases hmem with hz | hm
      · exact absurd hz (ne_of_gt hpos)
      · exact hm
    · rw [if_neg hc] at h
      obtain ⟨hcur, hval, ps₁, p₁, ps₂, hdec, hunprod, hmem, hub⟩ := ih h
      refine ⟨hcur, hval, p :: ps₁, p₁, ps₂, by rw [hdec, List.cons_append], ?_, hmem, hub⟩
      intro p' hp'
      rcases List.mem_cons.mp hp' with rfl | hp'
      · intro v hv
        push_neg at hc
        by_cases hms : amtMatches p' text = []
        · rw [patternValues, hms] at hv
          simp [matchValues] at hv
        · have hb := hc hms
          have hub' := (bestOfMatches_spec (amtMatches p' text)).2.2 v hv
          exact le_trans hub' hb
      · exact hunprod p' hp'

/-- C6 witness: on "$5 $20" (all amounts $-prefixed), the result 20 is a
match value of the productive pattern and dominates every match value. -/
theorem c6_largest_witness :
    (⟨20, .USD, ['2', '0']⟩ : Amount).currency = .USD ∧
    (0 : ℚ) < (⟨20, .USD, ['2', '0']⟩ : Amount).value ∧
    ∃ ps₁ p ps₂,
      globalPatterns .USD = ps₁ ++ p :: ps₂ ∧
      (∀ p' ∈ ps₁, ∀ v ∈ patternValues p' "$5 $20".toList, v ≤ 0) ∧
      (⟨20, .USD, ['2', '0']⟩ : Amount).value ∈ patternValues p "$5 $20".toList ∧
      ∀ v ∈ patternValues p "$5 $20".toList,
        v ≤ (⟨20, .USD, ['2', '0']⟩ : Amount).value :=
  c6_largest_within_first_productive_pattern "$5 $20".toList .USD
    (globalPatterns .USD) ⟨20, .USD, ['2', '0']⟩ (by decide)

/-- C7: `calibrateConfidence` equals the claimed clamp of the product of the
raw confidence with the three presence factors, and its value always lies
in `[0.1, 0.98]`. -/
theorem c7_calibrate_clamp (raw : ℚ) (hasAmount hasDate hasCompany : Bool) :
    calibrateConfidence raw hasAmount hasDate hasCompany =
      min (max (raw * (if hasAmount then 1 else 0.8) * (if hasDate then 1 else 0.9) *
        (if hasCompany then 1 else 0.85)) 0.1) 0.98 ∧
    (0.1 : ℚ) ≤ calibrateConfidence raw hasAmount hasDate hasCompany ∧
    calibrateConfidence raw hasAmount hasDate hasCompany ≤ 0.98 := by
  have heq : calibrateConfidence raw hasAmount hasDate hasCompany =
      min (max (raw * (if hasAmount then 1 else 0.8) * (if hasDate then 1 else 0.9) *
        (if hasCompany then 1 else 0.85)) 0.1) 0.98 := by
    cases hasAmount <;> cases hasDate <;> cases hasCompany <;>
      (simp [calibrateConfidence, qmul_eq, qmin_eq, qmax_eq, q_eq]; norm_num)
  refine ⟨heq, ?_, ?_⟩
  · rw [heq]
    exact le_min (le_max_right _ _) (by norm_num)
  · rw [heq]
    exact min_le_right _ _

/-- C8, counterexample: at raw confidence 0 (which the classifier produces
for UNKNOWN results) removing the amount signal does NOT strictly decrease
the calibrated confidence — both sides clamp to the floor 0.1. -/
theorem c8_counterexample_raw_zero :
    calibrateConfidence 0 true true true = q 1 10 ∧
    calibrateConfidence 0 false true true = q 1 10 ∧
    ¬ (calibrateConfidence 0 false true true <
        calibrateConfidence 0 true true true) := by decide

/-- C8 (amended): for every raw confidence strictly above the 0.1 floor and
at most 1 (the classifier's score range), the all-signals calibration is
strictly greater than with any one signal removed, and every calibrated
value lies in `[0.1, 0.98]`.  (At raw ≤ 0.1 or raw > 0.98/factor the clamp
makes the comparison non-strict, so the restriction is necessary.) -/
theorem c8_calibrate_strict_in_range (raw : ℚ) (hlo : q 1 10 < raw) (hhi : raw ≤ 1) :
    calibrateConfidence raw false true true < calibrateConfidence raw true true true ∧
    calibrateConfidence raw true false true < calibrateConfidence raw true true true ∧
    calibrateConfidence raw true true false < calibrateConfidence raw true true true ∧
    ∀ a d c : Bool, q 1 10 ≤ calibrateConfidence raw a d c ∧
      calibrateConfidence raw a d c ≤ q 98 100 := by
  have h1' : (1 / 10 : ℚ) < raw := by
    rw [q_eq] at hlo
    push_cast at hlo
    linarith
  have hr0 : (0 : ℚ) < raw := lt_trans (by norm_num) h1'
  have e0 : calibrateConfidence raw true true true = min (max raw (1 / 10)) (98 / 100) := by
    simp [calibrateConfidence, qmin_eq, qmax_eq, q_eq]
  have e1 : calibrateConfidence raw false true true =
      min (max (raw * (8 / 10)) (1 / 10)) (98 / 100) := by
    simp [calibrateConfidence, qmul_eq, qmin_eq, qmax_eq, q_eq]
  have e2 : calibrateConfidence raw true false true =
      min (max (raw * (9 / 10)) (1 / 10)) (98 / 100) := by
    simp [calibrateConfidence, qmul_eq, qmin_eq, qmax_eq, q_eq]
  have e3 : calibrateConfidence raw true true false =
      min (max (raw * (85 / 100)) (1 / 10)) (98 / 100) := by
    simp [calibrateConfidence, qmul_eq, qmin_eq, qmax_eq, q_eq]
  have key : ∀ f : ℚ, 0 < f → f ≤ 9 / 10 →
      min (max (raw * f) (1 / 10)) (98 / 100) < min (max raw (1 / 10)) (98 / 100) := by
    intro f hf0 hf9
    have hmaxr : max raw (1 / 10) = raw := max_eq_left (le_of_lt h1')
    rw [hmaxr]
    have hrf : raw * f < raw := by nlinarith
    have hrf98 : raw * f < 98 / 100 := by nlinarith
    have hmin : min (max (raw * f) (1 / 10)) (98 / 100) = max (raw * f) (1 / 10) :=
      min_eq_left (max_le (le_of_lt hrf98) (by norm_num))
    rw [hmin]
    exact max_lt (lt_min hrf hrf98) (lt_min h1' (by norm_num))
  refine ⟨?_, ?_, ?_, ?_⟩
  · rw [e0, e1]; exact key _ (by norm_num) (by norm_num)
  · rw [e0, e2]; exact key _ (by norm_num) (by norm_num)
  · rw [e0, e3]; exact key _ (by norm_num) (by norm_num)
  · intro a d c
    constructor
    · simp only [calibrateConfidence]
      rw [qmin_eq, qmax_eq]
      exact le_min (le_max_right _ _) (by rw [q_eq, q_eq]; norm_num)
    · simp only [calibrateConfidence]
      rw [qmin_eq]
      exact min_le_right _ _

/-- C8 witness: the amended strictness at the concrete raw confidence 1/2. -/
theorem c8_calibrate_strict_witness :
    calibrateConfidence (q 1 2) false true true <
      calibrateConfidence (q 1 2) true true true ∧
    calibrateConfidence (q 1 2) true false true <
      calibrateConfidence (q 1 2) true true true ∧
    calibrateConfidence (q 1 2) true true false <
      calibrateConfidence (q 1 2) true true true ∧
    ∀ a d c : Bool, q 1 10 ≤ calibrateConfidence (q 1 2) a d c ∧
      calibrateConfidence (q 1 2) a d c ≤ q 98 100 :=
  c8_calibrate_strict_in_range (q 1 2) (by decide) (by decide)

/-- C9: when nothing in any type's rule set matches the normalized text and
no context boost applies, classification totals to UNKNOWN with confidence
0 (and no company) — it never fails, it degrades. -/
theorem c9_classifyBill_unknown_total (text : List Char)
    (context : Option ClassifyContext)
    (hmatch : ∀ t, noRuleMatches (normalizeText text) t)
    (hboost : ∀ t, contextBoostOf context t = 0) :
    classifyBill text context = ⟨.UNKNOWN, 0, none, none⟩ := by
  have hts : ∀ t, calculateTypeScore (normalizeText text)
      (CLASSIFICATION_RULES t) context = ⟨0, none⟩ := by
    intro t
    obtain ⟨h1, h2, h3, h4⟩ := hmatch t
    exact calculateTypeScore_of_no_match _ _ _ h1 h2 h3 h4 (hboost t)
  have hsc : ∀ t, classifyScores text context t = 0 := by
    intro t
    unfold classifyScores
    rw [hts t]
  simp only [classifyBill, typeOrder, List.map_cons, List.map_nil, hts,
    List.foldl_cons, List.foldl_nil, reduceBest, pickLater, hsc, lt_irrefl,
    if_false, Option.getD_some]
  rfl

/-- C9 witness: the empty text with no context. -/
theorem c9_unknown_witness : classifyBill [] none = ⟨.UNKNOWN, 0, none, none⟩ :=
  c9_classifyBill_unknown_total [] none
    (fun t => by cases t <;> exact ⟨rfl, rfl, rfl, rfl⟩)
    (fun _ => rfl)

/-- C10: on "$1234.56" with no hints the USD pattern only admits 1–3
leading digits, captures "123", and the extractor silently returns value
123 — while the number written in the text reads 1234.56. -/
theorem c10_truncation :
    parseAmountAdvanced "$1234.56".toList none none =
      some ⟨123, .USD, ['1', '2', '3']⟩ ∧
    parseFloatQ "1234.56".toList = some (q 123456 100) ∧
    (123 : ℚ) ≠ q 123456 100 := by decide

end BillingTick
